import Mathlib

/-!
Verification of the cc-web Session Manager core (Go sources under
internal/sessions) against its natural-language specification.

The Go code is shallowly embedded: maps become association lists with
Go-map semantics (assignment replaces, delete removes, lookup is by key),
sets of ports become duplicate-free lists, external effects (tmux and ttyd
subprocess invocations, the filesystem, the clock, crypto randomness) are
oracle parameters, and every stateful method becomes a pure state-passing
function.  Strings iterated rune-by-rune in Go are modelled as `List Char`
where that matters (sanitizeName), and as `String` elsewhere.

Source files embedded here:
- internal/sessions/tmux.go   (TmuxRunner; the revision that sends text
  with the literal flag, also present as src/unnamed/part_006)
- internal/sessions/ttyd.go   (TtydManager with the portMap field)
- internal/sessions/manager.go (Manager; the revision with the
  snapshot-probe-reapply List/Get and the nil-map check in loadFromFile)
-/

namespace CCWeb

/-- Session status, from the Status constants in the sessions package. -/
inductive Status where
  | running
  | exited
  | unknown
deriving DecidableEq, Repr

/-- Session record, from the Session struct (sessions package).
Timestamps are modelled as naturals; TtydPort is a Go int that is 0 when
no embedded terminal is attached. -/
structure Session where
  id : String
  name : String
  cwd : String
  startCmd : String
  createdAt : Nat
  lastSeenAt : Nat
  tmuxName : String
  ttydPort : Nat
  status : Status
  terminalURL : String
deriving DecidableEq, Repr

/-- Go map lookup m[k], for any string-keyed map. -/
def goLookup {α : Type} (t : List (String × α)) (k : String) : Option α :=
  match t.find? (fun p => p.1 == k) with
  | some p => some p.2
  | none => none

/-- Go map assignment m[k] = v: replaces the binding when the key is
present, appends it otherwise. -/
def goInsert {α : Type} (t : List (String × α)) (k : String) (v : α) :
    List (String × α) :=
  if t.any (fun p => p.1 == k) then
    t.map (fun p => if p.1 == k then (k, v) else p)
  else
    t ++ [(k, v)]

/-- Go map delete(m, k). -/
def goErase {α : Type} (t : List (String × α)) (k : String) :
    List (String × α) :=
  t.filter (fun p => !(p.1 == k))

/-- The Manager session table, a Go map keyed by session id. -/
abbrev Table := List (String × Session)

/-- Character class accepted by sanitizeName: [A-Za-z0-9_-]. -/
def allowedNameChar (c : Char) : Bool :=
  (decide ('a' ≤ c) && decide (c ≤ 'z')) ||
  (decide ('A' ≤ c) && decide (c ≤ 'Z')) ||
  (decide ('0' ≤ c) && decide (c ≤ '9')) ||
  c == '-' || c == '_'

/-- sanitizeName from manager.go: keep only [A-Za-z0-9_-], fall back to
the literal "session" when nothing survives, else truncate to 30
characters.  Go iterates runes, so the input is a rune list. -/
def sanitizeName (name : List Char) : List Char :=
  let s := name.filter allowedNameChar
  if s = [] then
    "session".data
  else if s.length > 30 then
    s.take 30
  else
    s

/-- Character class of safeIDPattern: [a-zA-Z0-9._-]. -/
def safeIDChar (c : Char) : Bool :=
  (decide ('a' ≤ c) && decide (c ≤ 'z')) ||
  (decide ('A' ≤ c) && decide (c ≤ 'Z')) ||
  (decide ('0' ≤ c) && decide (c ≤ '9')) ||
  c == '.' || c == '_' || c == '-'

/-- safeIDPattern from manager.go: one or more safe characters. -/
def safeIDPattern (s : String) : Bool :=
  !s.data.isEmpty && s.data.all safeIDChar

/-- Go strings.HasPrefix, on the rune lists so that it evaluates. -/
def hasPre (s pre : String) : Bool :=
  pre.data.isPrefixOf s.data

/-- Go strings.TrimPrefix, on the rune lists so that it evaluates. -/
def trimPre (s pre : String) : String :=
  if pre.data.isPrefixOf s.data then String.mk (s.data.drop pre.data.length) else s

/-- The configuration fields the sessions package reads (config.Config).
tmuxPre is the TmuxPrefix field of the source. -/
structure Config where
  tmuxPre : String
  ttydBasePort : Nat
  ttydMaxPort : Nat
  maxSessions : Nat
deriving DecidableEq, Repr

/-! ## Process Runner (TmuxRunner, internal/sessions/tmux.go)

External command execution is an oracle mapping an argument vector to a
success bit; each method returns its success bit together with the list of
tmux invocations it performed, in order. -/

/-- Oracle giving the outcome of one tmux subprocess invocation. -/
abbrev TmuxExec := List String → Bool

namespace TmuxRunner

/-- Argument vector of the literal text send: send-keys -t name -l text. -/
def sendKeysLiteralCmd (tmuxName text : String) : List String :=
  ["send-keys", "-t", tmuxName, "-l", text]

/-- Argument vector of the separate Enter key press. -/
def sendKeysEnterCmd (tmuxName : String) : List String :=
  ["send-keys", "-t", tmuxName, "Enter"]

/-- SendKeys from tmux.go: send the text with the literal flag (so it is
never interpreted as key syntax), then send the logical Enter key as a
second invocation; stop after the first invocation when it fails. -/
def SendKeys (ex : TmuxExec) (tmuxName text : String) :
    Bool × List (List String) :=
  let cmd1 := sendKeysLiteralCmd tmuxName text
  if ex cmd1 then
    let cmd2 := sendKeysEnterCmd tmuxName
    (ex cmd2, [cmd1, cmd2])
  else
    (false, [cmd1])

end TmuxRunner

/-! ## Terminal Process Supervisor (TtydManager, internal/sessions/ttyd.go)

The processes map (tmuxName to running exec.Cmd) is modelled as the set of
registered names, usedPorts as a duplicate-free list of ports, portMap as
an association list. ttydPath is empty exactly when the ttyd binary was
not located. -/

structure TtydState where
  processes : List String
  usedPorts : List Nat
  portMap : List (String × Nat)
  ttydPath : String
  basePort : Nat
  maxPort : Nat
deriving DecidableEq, Repr

namespace TtydManager

/-- Available from ttyd.go: the ttyd binary was located at startup. -/
def Available (t : TtydState) : Bool :=
  t.ttydPath != ""

/-- Go set insertion usedPorts[p] = true. -/
def markUsed (ports : List Nat) (p : Nat) : List Nat :=
  if p ∈ ports then ports else p :: ports

/-- Go delete(usedPorts, p). -/
def removeUsed (ports : List Nat) (p : Nat) : List Nat :=
  ports.filter (fun q => !(q == p))

/-- Go set insertion processes[name] = cmd, as name registration. -/
def registerName (ps : List String) (n : String) : List String :=
  if n ∈ ps then ps else n :: ps

/-- Go delete(processes, name). -/
def removeName (ps : List String) (n : String) : List String :=
  ps.filter (fun m => !(m == n))

/-- The linear first-free scan of AllocatePort, with fuel covering the
port range. -/
def findFree (used : List Nat) (lo fuel : Nat) : Option Nat :=
  match fuel with
  | 0 => none
  | f + 1 => if lo ∈ used then findFree used (lo + 1) f else some lo

/-- AllocatePort from ttyd.go: first unused port in [basePort, maxPort],
marked used on success; pool-exhausted failure returns the state
unchanged. -/
def AllocatePort (t : TtydState) : Option Nat × TtydState :=
  match findFree t.usedPorts t.basePort (t.maxPort + 1 - t.basePort) with
  | some p => (some p, { t with usedPorts := markUsed t.usedPorts p })
  | none => (none, t)

/-- ReleasePort from ttyd.go: unconditional delete from usedPorts. -/
def ReleasePort (t : TtydState) (port : Nat) : TtydState :=
  { t with usedPorts := removeUsed t.usedPorts port }

/-- Start from ttyd.go.  spawnOk is the outcome of cmd.Start() for the new
process.  When ttyd is unavailable this is a successful no-op; otherwise
any existing registration for the name is killed and unregistered first
(including its port), then the spawn either fails (error, nothing
registered) or succeeds and registers process, port and portMap entry. -/
def Start (t : TtydState) (tmuxName : String) (port : Nat) (spawnOk : Bool) :
    Bool × TtydState :=
  if !(Available t) then
    (true, t)
  else
    let t1 :=
      if tmuxName ∈ t.processes then
        let base := { t with processes := removeName t.processes tmuxName }
        match goLookup t.portMap tmuxName with
        | some oldPort =>
            { base with usedPorts := removeUsed base.usedPorts oldPort,
                        portMap := goErase base.portMap tmuxName }
        | none => base
      else
        t
    if !spawnOk then
      (false, t1)
    else
      (true, { t1 with processes := registerName t1.processes tmuxName,
                       usedPorts := markUsed t1.usedPorts port,
                       portMap := goInsert t1.portMap tmuxName port })

/-- Stop from ttyd.go: kill and unregister the process for the name if
registered, then release its port via portMap; both steps are no-ops when
nothing is registered. -/
def Stop (t : TtydState) (tmuxName : String) : TtydState :=
  let t1 :=
    if tmuxName ∈ t.processes then
      { t with processes := removeName t.processes tmuxName }
    else
      t
  match goLookup t1.portMap tmuxName with
  | some port =>
      { t1 with usedPorts := removeUsed t1.usedPorts port,
                portMap := goErase t1.portMap tmuxName }
  | none => t1

/-- StopAll from ttyd.go: kill everything, clear all three tables. -/
def StopAll (t : TtydState) : TtydState :=
  { t with processes := [], usedPorts := [], portMap := [] }

end TtydManager

/-! ## Session Manager (internal/sessions/manager.go)

The Manager owns the session table and the ttyd supervisor state; tmux
outcomes, the clock, the rendered timestamp, the random suffix and the
filesystem are oracle parameters.  Each operation returns its result, the
successor state, and the list of tmux lifecycle invocations it made. -/

/-- Error taxonomy of the Manager: the typed not-found error
(notFoundError wrapping ErrNotFound) versus every other error message. -/
inductive MgrError where
  | notFound (id : String)
  | failure (msg : String)
deriving DecidableEq, Repr

/-- IsNotFound from manager.go: recognizes exactly the typed not-found
error. -/
def IsNotFound : MgrError → Bool
  | .notFound _ => true
  | .failure _ => false

/-- Manager state: the session table plus the ttyd supervisor state. -/
structure ManagerState where
  sessions : Table
  ttyd : TtydState
deriving DecidableEq, Repr

/-- Tmux lifecycle calls observable from Manager operations. -/
inductive TmuxCall where
  | newSession (name cwd cmd : String)
  | killSession (name : String)
deriving DecidableEq, Repr

/-- Contents of the persisted sessions file as seen by loadFromFile:
missing (os.IsNotExist), unparseable JSON, or valid JSON that unmarshals
to a map — where the JSON literal null yields a nil map (none). -/
inductive FileContent where
  | absent
  | corrupt
  | parsed (tbl : Option Table)
deriving DecidableEq, Repr

/-- CreateRequest from manager.go. -/
structure CreateRequest where
  name : String
  cwd : String
  startCmd : String
deriving DecidableEq, Repr

/-- A Go map[string]*Session variable, which unlike the Table may be nil
(none); assigning into a nil map panics, modelled by goMapInsert. -/
abbrev GoTable := Option Table

/-- Go map assignment on a possibly-nil map: panics (none) on a nil map. -/
def goMapInsert (m : GoTable) (k : String) (v : Session) : GoTable :=
  match m with
  | none => none
  | some t => some (goInsert t k v)

namespace Manager

/-- loadFromFile from manager.go: a missing or corrupt file keeps the
current table; a parsed file replaces it, with a nil unmarshal result
(JSON null) replaced by a fresh empty map before assignment. -/
def loadFromFile (cur : GoTable) (file : FileContent) : GoTable :=
  match file with
  | .absent => cur
  | .corrupt => cur
  | .parsed none => some []
  | .parsed (some t) => some t

/-- Per-entry status refresh shared by List and Get: the probe outcome
alone decides the stored status. -/
def refreshEntry (s : Session) (isAlive : Bool) (now : Nat) : Session :=
  if isAlive then
    { s with status := .running, lastSeenAt := now }
  else
    { s with status := .exited }

/-- Get from manager.go: probe one session and write the probed status
back; absent ids return none and leave the table unchanged. -/
def Get (tbl : Table) (id : String) (alive : String → Bool) (now : Nat) :
    Option Session × Table :=
  match goLookup tbl id with
  | none => (none, tbl)
  | some s =>
      let s2 := refreshEntry s (alive s.tmuxName) now
      (some s2, goInsert tbl id s2)

/-- The generated tmux name of Create: prefix, rendered timestamp,
sanitized display name, random suffix. -/
def genTmuxName (cfg : Config) (nowStr dispName suffix : String) : String :=
  cfg.tmuxPre ++ nowStr ++ "-" ++ String.mk (sanitizeName dispName.data) ++ "-" ++ suffix

/-- Create from manager.go.  pathAllowed and dirOk are the outcomes of
the allowlist check and os.Stat, tmuxCreateOk of tmux new-session,
spawnOk of the ttyd spawn; nowStr is the rendered timestamp and suffix
the random suffix.  Mirrors the source order: validate, cap check, name
generation and safety check, tmux create, then (only when ttyd is
available) port allocation and ttyd start with full rollback — release
the allocated port and kill the fresh tmux session — before any error
return; only full success inserts into the table. -/
def Create (cfg : Config) (st : ManagerState) (req : CreateRequest)
    (pathAllowed dirOk : Bool) (now : Nat) (nowStr suffix : String)
    (tmuxCreateOk spawnOk : Bool) :
    Except MgrError Session × ManagerState × List TmuxCall :=
  if !pathAllowed then
    (.error (.failure "path is not in allowed list"), st, [])
  else if !dirOk then
    (.error (.failure "path does not exist or is not a directory"), st, [])
  else
    let startCmd := if req.startCmd = "" then "claude" else req.startCmd
    let activeCount := (st.sessions.filter (fun p => p.2.status ≠ Status.exited)).length
    if activeCount ≥ cfg.maxSessions then
      (.error (.failure "max active sessions reached"), st, [])
    else
      let tmuxName := genTmuxName cfg nowStr req.name suffix
      let id := tmuxName
      if !(safeIDPattern id) then
        (.error (.failure "generated session ID is not safe"), st, [])
      else if !tmuxCreateOk then
        (.error (.failure "create tmux session"), st,
         [.newSession tmuxName req.cwd startCmd])
      else if TtydManager.Available st.ttyd then
        match TtydManager.AllocatePort st.ttyd with
        | (none, ttyd1) =>
            (.error (.failure "allocate port"), { st with ttyd := ttyd1 },
             [.newSession tmuxName req.cwd startCmd, .killSession tmuxName])
        | (some p, ttyd1) =>
            match TtydManager.Start ttyd1 tmuxName p spawnOk with
            | (false, ttyd2) =>
                (.error (.failure "start ttyd"),
                 { st with ttyd := TtydManager.ReleasePort ttyd2 p },
                 [.newSession tmuxName req.cwd startCmd, .killSession tmuxName])
            | (true, ttyd2) =>
                let s : Session :=
                  { id := id, name := req.name, cwd := req.cwd,
                    startCmd := startCmd, createdAt := now, lastSeenAt := now,
                    tmuxName := tmuxName, ttydPort := p, status := .running,
                    terminalURL := "/t/" ++ id ++ "/" }
                (.ok s, { sessions := goInsert st.sessions id s, ttyd := ttyd2 },
                 [.newSession tmuxName req.cwd startCmd])
      else
        let s : Session :=
          { id := id, name := req.name, cwd := req.cwd,
            startCmd := startCmd, createdAt := now, lastSeenAt := now,
            tmuxName := tmuxName, ttydPort := 0, status := .running,
            terminalURL := "" }
        (.ok s, { st with sessions := goInsert st.sessions id s },
         [.newSession tmuxName req.cwd startCmd])

/-- Kill from manager.go: unknown ids get the typed not-found error and
no mutation; known ids have their ttyd process stopped (releasing the
port), their tmux session killed (failure only logged — killOk does not
affect the outcome), and their entry removed. -/
def Kill (st : ManagerState) (id : String) (_killOk : Bool) :
    Except MgrError Unit × ManagerState × List TmuxCall :=
  match goLookup st.sessions id with
  | none => (.error (.notFound id), st, [])
  | some s =>
      (.ok (),
       { sessions := goErase st.sessions id,
         ttyd := TtydManager.Stop st.ttyd s.tmuxName },
       [.killSession s.tmuxName])

/-- The Session entry Recover inserts for a discovered orphan tmux
session; fields the source leaves at their zero value stay empty. -/
def orphanSession (cfg : Config) (nm : String) (port : Nat) (url : String)
    (now : Nat) : Session :=
  { id := nm, name := trimPre nm cfg.tmuxPre, cwd := "", startCmd := "",
    createdAt := now, lastSeenAt := now, tmuxName := nm, ttydPort := port,
    status := .running, terminalURL := url }

/-- Phase one of Recover, one persisted entry: absent from the live tmux
listing means exited; present means running with refreshed lastSeenAt,
restarting ttyd on the saved port when one was recorded, clearing port
and URL when that restart errors. -/
def recoverMark (names : List String) (spawnOk : String → Bool) (now : Nat)
    (acc : Table × TtydState) (p : String × Session) : Table × TtydState :=
  let (tbl, ts) := acc
  let (id, s) := p
  if names.contains s.tmuxName then
    if s.ttydPort > 0 then
      match TtydManager.Start ts s.tmuxName s.ttydPort (spawnOk s.tmuxName) with
      | (true, ts2) =>
          (tbl ++ [(id, { s with status := .running, lastSeenAt := now })], ts2)
      | (false, ts2) =>
          let s2 := { s with status := Status.running, lastSeenAt := now, ttydPort := 0, terminalURL := "" }
          (tbl ++ [(id, s2)], ts2)
    else
      (tbl ++ [(id, { s with status := .running, lastSeenAt := now })], ts)
  else
    (tbl ++ [(id, { s with status := .exited })], ts)

/-- Phase two of Recover, one live tmux name: skip names without the
configured prefix, unsafe names, and names already tracked; otherwise
allocate a port and start ttyd when available (releasing the port again
when the start fails, both failures swallowed per entry) and insert a new
running Session for the orphan. -/
def recoverOrphan (cfg : Config) (spawnOk : String → Bool) (now : Nat)
    (acc : Table × TtydState) (nm : String) : Table × TtydState :=
  let (tbl, ts) := acc
  if !(hasPre nm cfg.tmuxPre) then
    acc
  else if !(safeIDPattern nm) then
    acc
  else if tbl.any (fun p => p.2.tmuxName == nm) then
    acc
  else if TtydManager.Available ts then
    match TtydManager.AllocatePort ts with
    | (some p, ts1) =>
        match TtydManager.Start ts1 nm p (spawnOk nm) with
        | (true, ts2) =>
            (goInsert tbl nm (orphanSession cfg nm p ("/t/" ++ nm ++ "/") now), ts2)
        | (false, ts2) =>
            (goInsert tbl nm (orphanSession cfg nm 0 "" now),
             TtydManager.ReleasePort ts2 p)
    | (none, ts1) =>
        (goInsert tbl nm (orphanSession cfg nm 0 "" now), ts1)
  else
    (goInsert tbl nm (orphanSession cfg nm 0 "" now), ts)

/-- Recover from manager.go: load the persisted table, ask tmux for the
live session names (a hard error aborts recovery after the load), mark
every persisted entry against the live set, then discover untracked
prefixed orphans.  tmuxList is the ListSessions outcome, none meaning its
hard-error case. -/
def Recover (cfg : Config) (prev : Table) (file : FileContent)
    (tmuxList : Option (List String)) (ttyd : TtydState)
    (spawnOk : String → Bool) (now : Nat) :
    Except String Unit × Table × TtydState :=
  let loaded := (loadFromFile (some prev) file).getD []
  match tmuxList with
  | none => (.error "recover: list-sessions failed", loaded, ttyd)
  | some names =>
      let acc1 := loaded.foldl (recoverMark names spawnOk now) ([], ttyd)
      let acc2 := names.foldl (recoverOrphan cfg spawnOk now) acc1
      (.ok (), acc2.1, acc2.2)

end Manager

/-- List from manager.go: probe every snapshotted session (alive is the
HasSession oracle), write the probed status back into the table, and
return copies.  The source splits this into snapshot, unlocked probing
and reapply; atomically that is one pass in which every current entry is
probed, since sequentially the snapshot covers the whole table.
Declared outside the namespace so the type of lists stays in scope
within it. -/
def Manager.List (tbl : Table) (alive : String → Bool) (now : Nat) :
    Table × Table :=
  let tbl2 := tbl.map (fun p => (p.1, Manager.refreshEntry p.2 (alive p.2.tmuxName) now))
  (tbl2, tbl2)

/-! ## Concrete states used to evaluate the theorems on closed inputs -/

/-- Supervisor state when the ttyd binary was not located. -/
def tsUnavail : TtydState :=
  { processes := [], usedPorts := [], portMap := [], ttydPath := "",
    basePort := 19000, maxPort := 19010 }

/-- Supervisor startup state with the ttyd binary located. -/
def tsAvail : TtydState :=
  { tsUnavail with ttydPath := "ttyd" }

/-- Sample configuration mirroring the test fixture of the repository. -/
def cfgDemo : Config :=
  { tmuxPre := "test-", ttydBasePort := 19000, ttydMaxPort := 19010,
    maxSessions := 10 }

/-- Sample creation request. -/
def reqDemo : CreateRequest :=
  { name := "a", cwd := "/tmp", startCmd := "claude" }

/-- The id Create generates from cfgDemo, timestamp 20250101-1200,
display name a and random suffix abc. -/
def idDemo : String := "test-20250101-1200-a-abc"

/-- A tracked exited session keyed by idDemo. -/
def oldDemo : Session :=
  { id := idDemo, name := "a", cwd := "/tmp", startCmd := "claude",
    createdAt := 0, lastSeenAt := 0, tmuxName := idDemo, ttydPort := 0,
    status := .exited, terminalURL := "" }

/-- The session a later Create call with the same generated id builds. -/
def newDemo : Session :=
  { oldDemo with createdAt := 5, lastSeenAt := 5, status := .running }

/-- A tracked exited session with tmux name test-x. -/
def exDemo : Session :=
  { id := "test-x", name := "x", cwd := "/tmp", startCmd := "claude",
    createdAt := 0, lastSeenAt := 0, tmuxName := "test-x", ttydPort := 0,
    status := .exited, terminalURL := "" }

/-- Supervisor state tracking a ttyd process for test-x on port 19000. -/
def tsKill : TtydState :=
  { processes := ["test-x"], usedPorts := [19000],
    portMap := [("test-x", 19000)], ttydPath := "ttyd",
    basePort := 19000, maxPort := 19010 }

/-- Manager state with one session test-x whose ttyd holds port 19000. -/
def stKill : ManagerState :=
  { sessions := [("test-x", exDemo)], ttyd := tsKill }

/-- A persisted running session on saved port 19000, tmux name test-a. -/
def sessA : Session :=
  { id := "test-a", name := "a", cwd := "/tmp", startCmd := "claude",
    createdAt := 0, lastSeenAt := 0, tmuxName := "test-a", ttydPort := 19000,
    status := .running, terminalURL := "/t/test-a/" }

/-! ## Association list and set lemmas for the Go map model -/

theorem goLookup_eq_none_iff {α : Type} (t : List (String × α)) (k : String) :
    goLookup t k = none ↔ ∀ q ∈ t, ¬(q.1 == k) = true := by
  unfold goLookup
  cases hf : t.find? (fun p => p.1 == k) with
  | some p =>
      simp only [hf]
      constructor
      · intro h; cases h
      · intro h
        exact absurd (List.find?_some hf) (h p (List.mem_of_find?_eq_some hf))
  | none =>
      simp only [hf]
      constructor
      · intro _; exact List.find?_eq_none.1 hf
      · intro _; trivial

theorem find?_goReplace_self {α : Type} (t : List (String × α)) (k : String)
    (v : α) (h : t.any (fun p => p.1 == k) = true) :
    (t.map (fun p => if p.1 == k then (k, v) else p)).find? (fun p => p.1 == k) =
      some (k, v) := by
  induction t with
  | nil => simp at h
  | cons a tl ih =>
    by_cases hk : a.1 = k
    · simp [List.find?_cons, hk, -List.find?_map]
    · have h2 : tl.any (fun p => p.1 == k) = true := by
        simpa [List.any_cons, hk] using h
      simpa [List.find?_cons, hk, -List.find?_map] using ih h2

theorem find?_goReplace_ne {α : Type} (tl : List (String × α)) (k k2 : String)
    (v : α) (h : k2 ≠ k) :
    (tl.map (fun p => if p.1 == k then (k, v) else p)).find? (fun p => p.1 == k2) =
      tl.find? (fun p => p.1 == k2) := by
  induction tl with
  | nil => rfl
  | cons a tll ih =>
    by_cases hk : a.1 = k
    · have h1 : ¬ (k == k2) = true := by simp; exact fun hh => h hh.symm
      simpa [List.find?_cons, hk, h1, -List.find?_map] using ih
    · by_cases hp : a.1 = k2
      · simp [List.find?_cons, hk, hp, h, -List.find?_map]
      · simpa [List.find?_cons, hk, hp, -List.find?_map] using ih

theorem goLookup_goInsert_self {α : Type} (t : List (String × α)) (k : String)
    (v : α) : goLookup (goInsert t k v) k = some v := by
  unfold goInsert goLookup
  by_cases h : t.any (fun p => p.1 == k)
  · simp only [h, if_true, find?_goReplace_self t k v h]
  · have hnone : t.find? (fun p => p.1 == k) = none := by
      rw [List.find?_eq_none]
      intro x hx hc
      exact h (List.any_eq_true.2 ⟨x, hx, hc⟩)
    simp [h, List.find?_append, hnone, -List.find?_map]

theorem goLookup_goInsert_ne {α : Type} (t : List (String × α)) (k k2 : String)
    (v : α) (h : k2 ≠ k) : goLookup (goInsert t k v) k2 = goLookup t k2 := by
  unfold goInsert goLookup
  by_cases ha : t.any (fun p => p.1 == k)
  · simp only [ha, if_true, find?_goReplace_ne t k k2 v h]
  · simp only [ha, Bool.false_eq_true, if_false, List.find?_append]
    have h1 : ¬ (k == k2) = true := by simp; exact fun hh => h hh.symm
    cases hf : t.find? (fun p => p.1 == k2) with
    | some p => simp
    | none => simp [List.find?_cons, h1]

theorem mem_goInsert_of_ne {α : Type} (t : List (String × α)) (k k2 : String)
    (v v2 : α) (hm : (k, v) ∈ t) (h : k ≠ k2) : (k, v) ∈ goInsert t k2 v2 := by
  unfold goInsert
  by_cases ha : t.any (fun p => p.1 == k2)
  · simp only [ha, if_true]
    have heq : (fun (p : String × α) => if p.1 == k2 then (k2, v2) else p) (k, v) = (k, v) := by
      simp [h]
    exact heq ▸ List.mem_map_of_mem _ hm
  · simp only [ha, Bool.false_eq_true, if_false]
    exact List.mem_append_left _ hm

theorem goLookup_goErase_self {α : Type} (t : List (String × α)) (k : String) :
    goLookup (goErase t k) k = none := by
  rw [goLookup_eq_none_iff]
  intro q hq
  have := List.of_mem_filter hq
  simpa using this

theorem not_mem_removeUsed_self (l : List Nat) (p : Nat) :
    p ∉ TtydManager.removeUsed l p := by
  intro h
  have := List.of_mem_filter h
  simp at this

theorem mem_removeUsed_of_ne (l : List Nat) (p q : Nat) (hq : q ∈ l)
    (h : q ≠ p) : q ∈ TtydManager.removeUsed l p :=
  List.mem_filter.2 ⟨hq, by simpa using h⟩

theorem mem_markUsed_self (l : List Nat) (p : Nat) :
    p ∈ TtydManager.markUsed l p := by
  unfold TtydManager.markUsed
  by_cases h : p ∈ l <;> simp [h]

theorem mem_markUsed_of_mem (l : List Nat) (p q : Nat) (hq : q ∈ l) :
    q ∈ TtydManager.markUsed l p := by
  unfold TtydManager.markUsed
  by_cases h : p ∈ l <;> simp [h, hq]

/-! ## C8: name sanitization -/

/-- C8: sanitizeName removes every character outside [A-Za-z0-9_-],
truncates to at most 30 characters, and returns the fixed fallback
literal session exactly when the filtered input is empty; the result
always consists of safe characters and is never empty. -/
theorem C8_sanitizeName_spec (name : List Char) :
    sanitizeName name ≠ [] ∧
    (sanitizeName name).length ≤ 30 ∧
    (sanitizeName name).all allowedNameChar = true ∧
    (name.filter allowedNameChar = [] → sanitizeName name = "session".data) ∧
    (name.filter allowedNameChar ≠ [] →
      sanitizeName name = (name.filter allowedNameChar).take 30) := by
  by_cases h : name.filter allowedNameChar = []
  · refine ⟨?_, ?_, ?_, fun _ => ?_, fun hc => absurd h hc⟩ <;>
      simp only [sanitizeName, h, if_true] <;> decide
  · by_cases h30 : (name.filter allowedNameChar).length > 30
    · have hres : sanitizeName name = (name.filter allowedNameChar).take 30 := by
        simp [sanitizeName, h, h30]
      refine ⟨?_, ?_, ?_, fun hc => absurd hc h, fun _ => hres⟩
      · rw [hres]
        cases hf : name.filter allowedNameChar with
        | nil => exact absurd hf h
        | cons a tl => simp [List.take]
      · rw [hres, List.length_take]
        exact Nat.min_le_left _ _
      · rw [hres]
        simp only [List.all_eq_true]
        intro x hx
        exact List.of_mem_filter (List.take_subset _ _ hx)
    · have hle : (name.filter allowedNameChar).length ≤ 30 := Nat.le_of_not_lt h30
      have hres : sanitizeName name = name.filter allowedNameChar := by
        simp [sanitizeName, h, h30]
      refine ⟨?_, ?_, ?_, fun hc => absurd hc h, fun _ => ?_⟩
      · rw [hres]; exact h
      · rw [hres]; exact hle
      · rw [hres]
        simp only [List.all_eq_true]
        intro x hx
        exact List.of_mem_filter hx
      · rw [hres, List.take_of_length_le hle]

/-- C8 witness: an all-unsafe name falls back to the literal session; a
name with a space keeps only its safe characters. -/
theorem C8_sanitizeName_witness :
    sanitizeName "@@@".data = "session".data ∧
    sanitizeName "a b".data = ("a b".data.filter allowedNameChar).take 30 :=
  ⟨(C8_sanitizeName_spec "@@@".data).2.2.2.1 (by decide),
   (C8_sanitizeName_spec "a b".data).2.2.2.2 (by decide)⟩

/-! ## C2: SendText sends literal text then a separate Enter key -/

/-- C2: when the literal send succeeds, SendKeys performs exactly two
tmux invocations, first send-keys with the -l flag carrying the text and
then a separate send-keys carrying the Enter key; the text only ever
appears behind the literal flag. -/
theorem C2_sendKeys_literal_then_enter (ex : TmuxExec) (tmuxName text : String)
    (h : ex (TmuxRunner.sendKeysLiteralCmd tmuxName text) = true) :
    (TmuxRunner.SendKeys ex tmuxName text).2 =
      [["send-keys", "-t", tmuxName, "-l", text],
       ["send-keys", "-t", tmuxName, "Enter"]] := by
  simp only [TmuxRunner.sendKeysLiteralCmd] at h
  simp [TmuxRunner.SendKeys, TmuxRunner.sendKeysLiteralCmd,
        TmuxRunner.sendKeysEnterCmd, h]

/-- C2 witness: sending the text Enter types it literally via the -l
invocation and then presses the logical Enter key separately. -/
theorem C2_sendKeys_witness :
    (fun _ => true : TmuxExec) (TmuxRunner.sendKeysLiteralCmd "s" "Enter") = true ∧
    (TmuxRunner.SendKeys (fun _ => true) "s" "Enter").2 =
      [["send-keys", "-t", "s", "-l", "Enter"],
       ["send-keys", "-t", "s", "Enter"]] :=
  ⟨rfl, C2_sendKeys_literal_then_enter (fun _ => true) "s" "Enter" rfl⟩

/-! ## C9: loadFromFile never installs a nil table -/

/-- C9: loading a file whose JSON is the literal null installs a fresh
empty non-nil table, and for every file content the table after loading a
non-nil table is non-nil, so a subsequent Create insertion never panics. -/
theorem C9_loadFromFile_never_nil (t : Table) (file : FileContent) :
    (Manager.loadFromFile (some t) file).isSome = true ∧
    Manager.loadFromFile (some t) (.parsed none) = some [] ∧
    ∀ (k : String) (v : Session),
      (goMapInsert (Manager.loadFromFile (some t) file) k v).isSome = true := by
  refine ⟨?_, rfl, fun k v => ?_⟩ <;>
    cases file with
    | absent => simp [Manager.loadFromFile, goMapInsert]
    | corrupt => simp [Manager.loadFromFile, goMapInsert]
    | parsed o => cases o <;> simp [Manager.loadFromFile, goMapInsert]

/-! ## C7: ReleasePort and Stop are idempotent -/

theorem Stop_processes_eq (t : TtydState) (nm : String) :
    (TtydManager.Stop t nm).processes =
      (if nm ∈ t.processes then TtydManager.removeName t.processes nm
       else t.processes) := by
  unfold TtydManager.Stop
  by_cases hm : nm ∈ t.processes <;>
    simp only [hm, if_true, if_false] <;>
    cases hf : goLookup t.portMap nm <;> simp [hf]

theorem Stop_not_mem_processes (t : TtydState) (nm : String) :
    nm ∉ (TtydManager.Stop t nm).processes := by
  rw [Stop_processes_eq]
  by_cases hm : nm ∈ t.processes
  · simp only [hm, if_true]
    intro hc
    have := List.of_mem_filter hc
    simp at this
  · simp [hm]

theorem Stop_goLookup_portMap_none (t : TtydState) (nm : String) :
    goLookup (TtydManager.Stop t nm).portMap nm = none := by
  unfold TtydManager.Stop
  by_cases hm : nm ∈ t.processes <;>
    simp only [hm, if_true, if_false] <;>
    cases hf : goLookup t.portMap nm <;>
    simp [hf, goLookup_goErase_self]

theorem Stop_noop (t : TtydState) (nm : String) (h1 : nm ∉ t.processes)
    (h2 : goLookup t.portMap nm = none) : TtydManager.Stop t nm = t := by
  unfold TtydManager.Stop
  simp [h1, h2]

/-- C7: ReleasePort and Stop are idempotent: a second ReleasePort for the
same port and a second Stop for the same name are exact no-ops, and Stop
on a name with no registered process and no port entry (in particular any
name already stopped with no intervening registration) leaves the whole
supervisor state untouched, so it cannot free a port now held by another
session. -/
theorem C7_release_stop_idempotent :
    (∀ (ts : TtydState) (port : Nat),
       TtydManager.ReleasePort (TtydManager.ReleasePort ts port) port =
         TtydManager.ReleasePort ts port) ∧
    (∀ (ts : TtydState) (nm : String),
       TtydManager.Stop (TtydManager.Stop ts nm) nm = TtydManager.Stop ts nm) ∧
    (∀ (ts : TtydState) (nm : String), nm ∉ ts.processes →
       goLookup ts.portMap nm = none → TtydManager.Stop ts nm = ts) := by
  refine ⟨fun ts port => ?_, fun ts nm => ?_, Stop_noop⟩
  · simp [TtydManager.ReleasePort, TtydManager.removeUsed, List.filter_filter]
  · exact Stop_noop _ _ (Stop_not_mem_processes ts nm)
      (Stop_goLookup_portMap_none ts nm)

/-- C7 witness: concrete double release, double stop, and a stop of an
unregistered name on a state holding other registrations. -/
theorem C7_release_stop_witness :
    TtydManager.ReleasePort (TtydManager.ReleasePort tsKill 19000) 19000 =
      TtydManager.ReleasePort tsKill 19000 ∧
    TtydManager.Stop (TtydManager.Stop tsKill "test-x") "test-x" =
      TtydManager.Stop tsKill "test-x" ∧
    TtydManager.Stop tsKill "other" = tsKill :=
  ⟨C7_release_stop_idempotent.1 tsKill 19000,
   C7_release_stop_idempotent.2.1 tsKill "test-x",
   C7_release_stop_idempotent.2.2 tsKill "other" (by decide) (by decide)⟩

/-! ## C5: Kill semantics -/

theorem Stop_releases_port (t : TtydState) (nm : String) (p : Nat)
    (h : goLookup t.portMap nm = some p) :
    p ∉ (TtydManager.Stop t nm).usedPorts := by
  unfold TtydManager.Stop
  by_cases hm : nm ∈ t.processes <;>
    simp only [hm, if_true, Bool.false_eq_true, if_false] <;>
    simp only [h] <;>
    exact not_mem_removeUsed_self _ _

theorem goLookup_List_none (tbl : Table) (alive : String → Bool) (now : Nat)
    (k : String) (h : goLookup tbl k = none) :
    goLookup (Manager.List tbl alive now).2 k = none := by
  rw [goLookup_eq_none_iff] at h ⊢
  intro q hq
  simp only [Manager.List] at hq
  rcases List.mem_map.1 hq with ⟨p, hp, rfl⟩
  exact h p hp

/-- C5: Kill on an absent id returns the typed not-found error
(recognized by IsNotFound) and mutates nothing; Kill on a present id
removes the entry (it is gone from the table and from any later List
pass), stops its ttyd process, frees its registered port, and does all
this for either outcome of the tmux kill. -/
theorem C5_kill_spec :
    (∀ (st : ManagerState) (id : String) (b : Bool),
       goLookup st.sessions id = none →
       Manager.Kill st id b = (.error (.notFound id), st, []) ∧
       IsNotFound (MgrError.notFound id) = true) ∧
    (∀ (st : ManagerState) (id : String) (s : Session) (b : Bool),
       goLookup st.sessions id = some s →
       (Manager.Kill st id b).1 = .ok () ∧
       (Manager.Kill st id b).2.1.sessions = goErase st.sessions id ∧
       goLookup (Manager.Kill st id b).2.1.sessions id = none ∧
       (∀ (alive : String → Bool) (now : Nat),
          goLookup (Manager.List (Manager.Kill st id b).2.1.sessions alive now).2 id = none) ∧
       (Manager.Kill st id b).2.1.ttyd = TtydManager.Stop st.ttyd s.tmuxName ∧
       (∀ p, goLookup st.ttyd.portMap s.tmuxName = some p →
          p ∉ (Manager.Kill st id b).2.1.ttyd.usedPorts)) := by
  constructor
  · intro st id b h
    exact ⟨by simp [Manager.Kill, h], rfl⟩
  · intro st id s b h
    have hk : Manager.Kill st id b =
        (.ok (),
         { sessions := goErase st.sessions id,
           ttyd := TtydManager.Stop st.ttyd s.tmuxName },
         [.killSession s.tmuxName]) := by
      simp [Manager.Kill, h]
    refine ⟨by rw [hk], by rw [hk], ?_, ?_, by rw [hk], ?_⟩
    · rw [hk]; exact goLookup_goErase_self _ _
    · intro alive now
      rw [hk]
      exact goLookup_List_none _ _ _ _ (goLookup_goErase_self _ _)
    · intro p hp
      rw [hk]
      exact Stop_releases_port st.ttyd s.tmuxName p hp

/-- C5 witness: on a state tracking test-x with port 19000, killing an
absent id is a pure typed error, killing test-x (with the tmux kill
failing) removes the entry and frees the port. -/
theorem C5_kill_witness :
    Manager.Kill stKill "absent" true = (.error (.notFound "absent"), stKill, []) ∧
    goLookup (Manager.Kill stKill "test-x" false).2.1.sessions "test-x" = none ∧
    19000 ∉ (Manager.Kill stKill "test-x" false).2.1.ttyd.usedPorts :=
  ⟨(C5_kill_spec.1 stKill "absent" true (by decide)).1,
   (C5_kill_spec.2 stKill "test-x" exDemo false (by decide)).2.2.1,
   (C5_kill_spec.2 stKill "test-x" exDemo false (by decide)).2.2.2.2.2 19000 (by decide)⟩

/-! ## C1: probing revives exited sessions (claim fails on the code) -/

theorem refreshEntry_status (s : Session) (b : Bool) (now : Nat) :
    (Manager.refreshEntry s b now).status =
      (if b then Status.running else Status.exited) := by
  cases b <;> simp [Manager.refreshEntry]

theorem refreshEntry_tmuxName (s : Session) (b : Bool) (now : Nat) :
    (Manager.refreshEntry s b now).tmuxName = s.tmuxName := by
  cases b <;> simp [Manager.refreshEntry]

/-- C1 counterexample: a session the Manager holds as exited whose tmux
name the multiplexer reports alive again is set back to running both by
List and by Get — the probe, not recovery, performs the exited-to-running
transition. -/
theorem C1_counterexample :
    exDemo.status = Status.exited ∧
    (Manager.List [("test-x", exDemo)] (fun _ => true) 5).1 =
      [("test-x", { exDemo with status := Status.running, lastSeenAt := 5 })] ∧
    (Manager.Get [("test-x", exDemo)] "test-x" (fun _ => true) 5).1 =
      some { exDemo with status := Status.running, lastSeenAt := 5 } :=
  ⟨rfl, rfl, rfl⟩

/-- C1 amended: List and Get recompute every probed session's status
solely from the probe outcome — running with a refreshed lastSeenAt when
the multiplexer reports the name (even if the stored status was exited),
exited otherwise — and write that status back into the table; an exited
session is therefore revived by List/Get whenever its multiplexer name is
reported alive again. -/
theorem C1_amended_probe_decides (tbl : Table) (id : String)
    (alive : String → Bool) (now : Nat) (s : Session)
    (h : goLookup tbl id = some s) :
    (Manager.Get tbl id alive now).1.map Session.status =
      some (if alive s.tmuxName then Status.running else Status.exited) ∧
    (alive s.tmuxName = true →
      (Manager.Get tbl id alive now).1.map Session.lastSeenAt = some now) ∧
    goLookup (Manager.Get tbl id alive now).2 id = (Manager.Get tbl id alive now).1 ∧
    (∀ q ∈ (Manager.List tbl alive now).2,
       q.2.status = (if alive q.2.tmuxName then Status.running else Status.exited)) := by
  have hget : Manager.Get tbl id alive now =
      (some (Manager.refreshEntry s (alive s.tmuxName) now),
       goInsert tbl id (Manager.refreshEntry s (alive s.tmuxName) now)) := by
    simp [Manager.Get, h]
  refine ⟨?_, fun ha => ?_, ?_, ?_⟩
  · rw [hget]
    simp [refreshEntry_status]
  · rw [hget]
    simp [Manager.refreshEntry, ha]
  · rw [hget]
    exact goLookup_goInsert_self _ _ _
  · intro q hq
    simp only [Manager.List] at hq
    rcases List.mem_map.1 hq with ⟨p, hp, rfl⟩
    rw [refreshEntry_status, refreshEntry_tmuxName]

/-- C1 amended witness: the concrete exited session test-x is reported
running by Get when the probe says alive. -/
theorem C1_amended_witness :
    (Manager.Get [("test-x", exDemo)] "test-x" (fun _ => true) 5).1.map Session.status =
      some (if (fun _ => true : String → Bool) exDemo.tmuxName then Status.running
            else Status.exited) :=
  (C1_amended_probe_decides [("test-x", exDemo)] "test-x" (fun _ => true) 5 exDemo
    (by decide)).1

theorem Create_ok_characterization (cfg : Config) (st : ManagerState)
    (req : CreateRequest) (pA dOk : Bool) (now : Nat) (nowStr suffix : String)
    (tOk spOk : Bool) (s : Session)
    (hs : (Manager.Create cfg st req pA dOk now nowStr suffix tOk spOk).1 = .ok s) :
    s.id = Manager.genTmuxName cfg nowStr req.name suffix ∧
    (Manager.Create cfg st req pA dOk now nowStr suffix tOk spOk).2.1.sessions =
      goInsert st.sessions s.id s := by
  rcases hC : Manager.Create cfg st req pA dOk now nowStr suffix tOk spOk with ⟨res, st2, trace⟩
  rw [hC] at hs
  simp only [] at hs ⊢
  unfold Manager.Create at hC
  repeat' split at hC
  all_goals try simp_all
  all_goals repeat' split at hC
  all_goals try simp_all
  all_goals (obtain ⟨h1, h2, h3⟩ := hC; subst h1; subst h2; exact ⟨rfl, rfl⟩)

theorem C4_counterexample :
    Manager.Create cfgDemo { sessions := [(idDemo, oldDemo)], ttyd := tsUnavail }
        reqDemo true true 5 "20250101-1200" "abc" true true =
      (.ok newDemo, { sessions := [(idDemo, newDemo)], ttyd := tsUnavail },
       [.newSession idDemo "/tmp" "claude"]) ∧
    oldDemo ≠ newDemo :=
  ⟨rfl, by decide⟩

theorem C4_amended_create_fresh_no_overwrite (cfg : Config) (st : ManagerState)
    (req : CreateRequest) (pA dOk : Bool) (now : Nat) (nowStr suffix : String)
    (tOk spOk : Bool) (s : Session)
    (hfresh : goLookup st.sessions (Manager.genTmuxName cfg nowStr req.name suffix) = none)
    (hok : (Manager.Create cfg st req pA dOk now nowStr suffix tOk spOk).1 = .ok s) :
    s.id = Manager.genTmuxName cfg nowStr req.name suffix ∧
    goLookup st.sessions s.id = none ∧
    goLookup (Manager.Create cfg st req pA dOk now nowStr suffix tOk spOk).2.1.sessions s.id = some s ∧
    (∀ k2, k2 ≠ s.id →
      goLookup (Manager.Create cfg st req pA dOk now nowStr suffix tOk spOk).2.1.sessions k2 =
        goLookup st.sessions k2) := by
  obtain ⟨hid, hsess⟩ :=
    Create_ok_characterization cfg st req pA dOk now nowStr suffix tOk spOk s hok
  refine ⟨hid, by rw [hid]; exact hfresh, ?_, ?_⟩
  · rw [hsess]; exact goLookup_goInsert_self _ _ _
  · intro k2 hk2; rw [hsess]; exact goLookup_goInsert_ne _ _ _ _ hk2

theorem C4_amended_witness :
    goLookup (Manager.Create cfgDemo { sessions := [], ttyd := tsUnavail }
        reqDemo true true 5 "20250101-1200" "abc" true true).2.1.sessions
      newDemo.id = some newDemo :=
  (C4_amended_create_fresh_no_overwrite cfgDemo { sessions := [], ttyd := tsUnavail }
    reqDemo true true 5 "20250101-1200" "abc" true true newDemo rfl rfl).2.2.1

theorem findFree_not_mem (used : List Nat) :
    ∀ (fuel lo p : Nat), TtydManager.findFree used lo fuel = some p → p ∉ used := by
  intro fuel
  induction fuel with
  | zero => intro lo p h; simp [TtydManager.findFree] at h
  | succ f ih =>
    intro lo p h
    unfold TtydManager.findFree at h
    by_cases hm : lo ∈ used
    · rw [if_pos hm] at h
      exact ih (lo + 1) p h
    · rw [if_neg hm] at h
      injection h with h
      exact h ▸ hm

theorem AllocatePort_some (t : TtydState) (p : Nat) (t2 : TtydState)
    (h : TtydManager.AllocatePort t = (some p, t2)) :
    p ∉ t.usedPorts ∧ t2 = { t with usedPorts := TtydManager.markUsed t.usedPorts p } := by
  unfold TtydManager.AllocatePort at h
  cases hf : TtydManager.findFree t.usedPorts t.basePort (t.maxPort + 1 - t.basePort) with
  | none => rw [hf] at h; simp at h
  | some q =>
    rw [hf] at h
    simp only [Prod.mk.injEq, Option.some.injEq] at h
    obtain ⟨rfl, rfl⟩ := h
    exact ⟨findFree_not_mem t.usedPorts _ _ _ hf, rfl⟩

theorem AllocatePort_none (t : TtydState) (t2 : TtydState)
    (h : TtydManager.AllocatePort t = (none, t2)) : t2 = t := by
  unfold TtydManager.AllocatePort at h
  cases hf : TtydManager.findFree t.usedPorts t.basePort (t.maxPort + 1 - t.basePort) with
  | none => rw [hf] at h; simp at h; exact h.symm
  | some q => rw [hf] at h; simp at h

theorem Start_fail_state (t : TtydState) (n : String) (p : Nat)
    (hA : TtydManager.Available t = true) (hn : n ∉ t.processes) :
    TtydManager.Start t n p false = (false, t) := by
  unfold TtydManager.Start
  simp [hA, hn]

theorem removeUsed_markUsed (l : List Nat) (p : Nat) (h : p ∉ l) :
    TtydManager.removeUsed (TtydManager.markUsed l p) p = l := by
  unfold TtydManager.markUsed TtydManager.removeUsed
  rw [if_neg h]
  rw [List.filter_cons_of_neg (by simp)]
  exact List.filter_eq_self.mpr (fun a ha => by
    simp only [Bool.not_eq_true']
    exact beq_eq_false_iff_ne.mpr (fun hc => h (hc ▸ ha)))

/-- C3: when validation passes, the cap and safety checks pass, the tmux
session is created, but port allocation fails or the ttyd spawn fails,
Create returns an error, kills the just-created tmux session (visible in
the invocation trace right after the creation), and leaves the whole
Manager state — session table and port pool included — exactly as it
was. -/
theorem C3_create_rollback (cfg : Config) (st : ManagerState) (req : CreateRequest)
    (now : Nat) (nowStr suffix : String) (spawnOk : Bool)
    (hcap : (st.sessions.filter (fun p => p.2.status ≠ Status.exited)).length < cfg.maxSessions)
    (hsafe : safeIDPattern (Manager.genTmuxName cfg nowStr req.name suffix) = true)
    (hname : Manager.genTmuxName cfg nowStr req.name suffix ∉ st.ttyd.processes)
    (hav : TtydManager.Available st.ttyd = true)
    (hfail : (TtydManager.AllocatePort st.ttyd).1 = none ∨ spawnOk = false) :
    (∃ e, (Manager.Create cfg st req true true now nowStr suffix true spawnOk).1 =
       .error e) ∧
    (Manager.Create cfg st req true true now nowStr suffix true spawnOk).2.1 = st ∧
    (Manager.Create cfg st req true true now nowStr suffix true spawnOk).2.2 =
      [.newSession (Manager.genTmuxName cfg nowStr req.name suffix) req.cwd
         (if req.startCmd = "" then "claude" else req.startCmd),
       .killSession (Manager.genTmuxName cfg nowStr req.name suffix)] := by
  rcases hC : Manager.Create cfg st req true true now nowStr suffix true spawnOk with ⟨res, st2, trace⟩
  simp only [] at hC ⊢
  unfold Manager.Create at hC
  rw [if_neg (by decide), if_neg (by decide), if_neg (not_le.mpr hcap),
      if_neg (by simp [hsafe]), if_neg (by decide), if_pos hav] at hC
  rcases hA : TtydManager.AllocatePort st.ttyd with ⟨o, ttyd1⟩
  rw [hA] at hC
  cases o with
  | none =>
    have h1 := AllocatePort_none _ _ hA
    subst h1
    simp only [Prod.mk.injEq] at hC
    obtain ⟨h1, h2, h3⟩ := hC
    subst h1
    subst h2
    subst h3
    exact ⟨⟨_, rfl⟩, rfl, rfl⟩
  | some p =>
    obtain ⟨hfresh, h1eq⟩ := AllocatePort_some _ _ _ hA
    subst h1eq
    rcases hfail with hf | hf
    · rw [hA] at hf
      simp at hf
    · subst hf
      simp only [] at hC
      rw [Start_fail_state
            { st.ttyd with usedPorts := TtydManager.markUsed st.ttyd.usedPorts p }
            (Manager.genTmuxName cfg nowStr req.name suffix) p hav hname] at hC
      simp only [Prod.mk.injEq] at hC
      obtain ⟨h1, h2, h3⟩ := hC
      subst h1
      subst h2
      subst h3
      have hrel : TtydManager.ReleasePort
          { st.ttyd with usedPorts := TtydManager.markUsed st.ttyd.usedPorts p } p = st.ttyd := by
        unfold TtydManager.ReleasePort
        simp only []
        rw [removeUsed_markUsed _ _ hfresh]
      refine ⟨⟨_, rfl⟩, ?_, rfl⟩
      rw [hrel]

/-- C3 witness: with an available supervisor and a failing ttyd spawn,
Create on the empty state returns to exactly the empty state. -/
theorem C3_create_rollback_witness :
    (Manager.Create cfgDemo { sessions := [], ttyd := tsAvail } reqDemo
        true true 5 "20250101-1200" "abc" true false).2.1 =
      { sessions := [], ttyd := tsAvail } :=
  (C3_create_rollback cfgDemo { sessions := [], ttyd := tsAvail } reqDemo 5
    "20250101-1200" "abc" false (by decide) (by decide) (by decide) (by decide)
    (Or.inr rfl)).2.1

theorem recoverMark_step (names : List String) (spawnOk : String → Bool) (now : Nat)
    (acc : Table × TtydState) (id : String) (s : Session) :
    ∃ s2, (Manager.recoverMark names spawnOk now acc (id, s)).1 = acc.1 ++ [(id, s2)] ∧
      s2.status = (if names.contains s.tmuxName then Status.running else Status.exited) ∧
      s2.lastSeenAt = (if names.contains s.tmuxName then now else s.lastSeenAt) ∧
      s2.tmuxName = s.tmuxName := by
  rcases acc with ⟨tbl0, ts0⟩
  by_cases hm : s.tmuxName ∈ names
  · by_cases h2 : s.ttydPort > 0
    · rcases hS : TtydManager.Start ts0 s.tmuxName s.ttydPort (spawnOk s.tmuxName) with ⟨b, ts2⟩
      cases b
      · exact ⟨{ s with status := Status.running, lastSeenAt := now, ttydPort := 0, terminalURL := "" },
          by simp [Manager.recoverMark, hm, h2, hS], by simp [hm], by simp [hm], rfl⟩
      · exact ⟨{ s with status := Status.running, lastSeenAt := now },
          by simp [Manager.recoverMark, hm, h2, hS], by simp [hm], by simp [hm], rfl⟩
    · exact ⟨{ s with status := Status.running, lastSeenAt := now },
        by simp [Manager.recoverMark, hm, h2], by simp [hm], by simp [hm], rfl⟩
  · exact ⟨{ s with status := Status.exited },
      by simp [Manager.recoverMark, hm], by simp [hm], by simp [hm], rfl⟩

theorem recoverMark_fold_mono (names : List String) (spawnOk : String → Bool) (now : Nat) :
    ∀ (tbl : Table) (acc : Table × TtydState) (x : String × Session),
      x ∈ acc.1 → x ∈ (tbl.foldl (Manager.recoverMark names spawnOk now) acc).1 := by
  intro tbl
  induction tbl with
  | nil => intro acc x h; exact h
  | cons q rest ih =>
    intro acc x h
    rw [List.foldl_cons]
    apply ih
    obtain ⟨s2, heq, _, _, _⟩ := recoverMark_step names spawnOk now acc q.1 q.2
    rw [heq]
    exact List.mem_append_left _ h

theorem recoverMark_fold_mem (names : List String) (spawnOk : String → Bool) (now : Nat) :
    ∀ (tbl : Table) (acc : Table × TtydState) (id : String) (s : Session),
      (id, s) ∈ tbl →
      ∃ s2, (id, s2) ∈ (tbl.foldl (Manager.recoverMark names spawnOk now) acc).1 ∧
        s2.status = (if names.contains s.tmuxName then Status.running else Status.exited) ∧
        s2.lastSeenAt = (if names.contains s.tmuxName then now else s.lastSeenAt) ∧
        s2.tmuxName = s.tmuxName := by
  intro tbl
  induction tbl with
  | nil => intro acc id s h; cases h
  | cons q rest ih =>
    intro acc id s h
    rw [List.foldl_cons]
    rcases List.mem_cons.1 h with heq | hmem
    · obtain ⟨s2, hstep, hst, hls, htm⟩ := recoverMark_step names spawnOk now acc q.1 q.2
      refine ⟨s2, ?_, ?_, ?_, ?_⟩
      · apply recoverMark_fold_mono names spawnOk now rest
        rw [hstep]
        have : (id, s) = q := heq
        rw [← this]
        exact List.mem_append_right _ (by simp)
      · rw [show s = q.2 from congrArg Prod.snd heq] ; exact hst
      · rw [show s = q.2 from congrArg Prod.snd heq] ; exact hls
      · rw [show s = q.2 from congrArg Prod.snd heq] ; exact htm
    · exact ih _ id s hmem

theorem recoverOrphan_fold_preserve (cfg : Config) (spawnOk : String → Bool) (now : Nat) :
    ∀ (nms : List String) (acc : Table × TtydState) (id : String) (s2 : Session),
      (id, s2) ∈ acc.1 → id = s2.tmuxName →
      (id, s2) ∈ (nms.foldl (Manager.recoverOrphan cfg spawnOk now) acc).1 := by
  intro nms
  induction nms with
  | nil => intro acc id s2 h _; exact h
  | cons nm rest ih =>
    intro acc id s2 h hid
    rw [List.foldl_cons]
    apply ih _ id s2 _ hid
    rcases acc with ⟨tbl0, ts0⟩
    by_cases g1 : hasPre nm cfg.tmuxPre = true
    · by_cases g2 : safeIDPattern nm = true
      · by_cases g3 : tbl0.any (fun p => p.2.tmuxName == nm) = true
        · simpa [Manager.recoverOrphan, g1, g2, g3] using h
        · have hne : id ≠ nm := by
            intro hc
            exact g3 (List.any_eq_true.2 ⟨(id, s2), h, by simp [hc ▸ hid.symm]⟩)
          by_cases g4 : TtydManager.Available ts0 = true
          · rcases hA : TtydManager.AllocatePort ts0 with ⟨o, ts1⟩
            cases o with
            | none =>
              simp only [Manager.recoverOrphan, g1, g2, g3, g4, hA]
              simp only [Bool.not_true, Bool.false_eq_true, if_false, if_true]
              exact mem_goInsert_of_ne _ _ _ _ _ h hne
            | some p =>
              rcases hS : TtydManager.Start ts1 nm p (spawnOk nm) with ⟨b, ts2⟩
              cases b <;>
                · simp only [Manager.recoverOrphan, g1, g2, g3, g4, hA, hS]
                  simp only [Bool.not_true, Bool.false_eq_true, if_false, if_true]
                  exact mem_goInsert_of_ne _ _ _ _ _ h hne
          · simp only [Manager.recoverOrphan, g1, g2, g3, g4]
            simp only [Bool.not_true, Bool.false_eq_true, if_false, if_true]
            exact mem_goInsert_of_ne _ _ _ _ _ h hne
      · simpa [Manager.recoverOrphan, g1, g2] using h
    · simpa [Manager.recoverOrphan, g1] using h

/-- C6: for every persisted entry, Recover marks it exited when its tmux
name is absent from the live listing, and running with lastSeenAt
refreshed to the recovery time when its name is present; the entry
survives orphan discovery untouched (its id, being its tmux name, is
always skipped there). -/
theorem C6_recover_marks (cfg : Config) (prev tbl : Table) (names : List String)
    (ttyd : TtydState) (spawnOk : String → Bool) (now : Nat) (id : String) (s : Session)
    (hmem : (id, s) ∈ tbl) (hid : id = s.tmuxName) :
    ∃ s2, (id, s2) ∈ (Manager.Recover cfg prev (.parsed (some tbl)) (some names)
        ttyd spawnOk now).2.1 ∧
      s2.status = (if names.contains s.tmuxName then Status.running else Status.exited) ∧
      s2.lastSeenAt = (if names.contains s.tmuxName then now else s.lastSeenAt) := by
  obtain ⟨s2, hmem2, hst, hls, htm⟩ :=
    recoverMark_fold_mem names spawnOk now tbl ([], ttyd) id s hmem
  refine ⟨s2, ?_, hst, hls⟩
  unfold Manager.Recover Manager.loadFromFile
  simp only [Option.getD]
  exact recoverOrphan_fold_preserve cfg spawnOk now names _ id s2 hmem2 (hid.trans htm.symm)

/-- C6 witness: one persisted entry present in the live listing is marked
running at time 7, one absent entry is marked exited. -/
theorem C6_recover_marks_witness :
    (∃ s2, ("test-x", s2) ∈ (Manager.Recover cfgDemo [] (.parsed (some [("test-x", exDemo)]))
        (some ["test-x"]) tsUnavail (fun _ => true) 7).2.1 ∧
      s2.status = (if (["test-x"].contains exDemo.tmuxName) then Status.running else Status.exited) ∧
      s2.lastSeenAt = (if (["test-x"].contains exDemo.tmuxName) then 7 else exDemo.lastSeenAt)) ∧
    (∃ s2, ("test-x", s2) ∈ (Manager.Recover cfgDemo [] (.parsed (some [("test-x", exDemo)]))
        (some []) tsUnavail (fun _ => true) 7).2.1 ∧
      s2.status = (if (([] : List String).contains exDemo.tmuxName) then Status.running else Status.exited) ∧
      s2.lastSeenAt = (if (([] : List String).contains exDemo.tmuxName) then 7 else exDemo.lastSeenAt)) :=
  ⟨C6_recover_marks cfgDemo [] [("test-x", exDemo)] ["test-x"] tsUnavail (fun _ => true) 7
     "test-x" exDemo (by decide) rfl,
   C6_recover_marks cfgDemo [] [("test-x", exDemo)] [] tsUnavail (fun _ => true) 7
     "test-x" exDemo (by decide) rfl⟩

theorem Start_ttydPath (t : TtydState) (n : String) (p : Nat) (ok : Bool) :
    (TtydManager.Start t n p ok).2.ttydPath = t.ttydPath := by
  unfold TtydManager.Start
  repeat' split
  all_goals rfl

theorem Start_Available (t : TtydState) (n : String) (p : Nat) (ok : Bool) :
    TtydManager.Available (TtydManager.Start t n p ok).2 = TtydManager.Available t := by
  unfold TtydManager.Available
  rw [Start_ttydPath]

theorem Start_processes_subset (t : TtydState) (n : String) (p : Nat) (ok : Bool) :
    ∀ x, x ∈ (TtydManager.Start t n p ok).2.processes → x = n ∨ x ∈ t.processes := by
  intro x hx
  unfold TtydManager.Start at hx
  repeat' split at hx
  all_goals
    simp_all [TtydManager.registerName, TtydManager.removeName]
  all_goals tauto

theorem Start_usedPorts_mono (t : TtydState) (n : String) (p : Nat) (ok : Bool)
    (q : Nat) (hn : n ∉ t.processes) (hq : q ∈ t.usedPorts) :
    q ∈ (TtydManager.Start t n p ok).2.usedPorts := by
  unfold TtydManager.Start
  by_cases hA : TtydManager.Available t = true
  · rw [if_neg (by simp [hA])]
    simp only [if_neg hn]
    cases ok with
    | false => exact hq
    | true =>
      simp only [Bool.not_true, Bool.false_eq_true, if_false]
      exact mem_markUsed_of_mem _ _ _ hq
  · rw [if_pos (by simp [TtydManager.Available] at hA ⊢; exact hA)]
    exact hq

theorem Start_true_mem (t : TtydState) (n : String) (p : Nat)
    (hA : TtydManager.Available t = true) :
    p ∈ (TtydManager.Start t n p true).2.usedPorts := by
  unfold TtydManager.Start
  rw [if_neg (by simp [hA])]
  simp only [Bool.not_true, Bool.false_eq_true, if_false]
  split <;> exact mem_markUsed_self _ _

theorem recoverMark_step_full (names : List String) (spawnOk : String → Bool)
    (now : Nat) (acc : Table × TtydState) (id : String) (s : Session) :
    ∃ s2, (Manager.recoverMark names spawnOk now acc (id, s)).1 = acc.1 ++ [(id, s2)] ∧
      s2.tmuxName = s.tmuxName ∧
      ((Manager.recoverMark names spawnOk now acc (id, s)).2 = acc.2 ∨
       (Manager.recoverMark names spawnOk now acc (id, s)).2 =
         (TtydManager.Start acc.2 s.tmuxName s.ttydPort (spawnOk s.tmuxName)).2) ∧
      (s.tmuxName ∈ names → 0 < s.ttydPort →
        (Manager.recoverMark names spawnOk now acc (id, s)).2 =
          (TtydManager.Start acc.2 s.tmuxName s.ttydPort (spawnOk s.tmuxName)).2) := by
  rcases acc with ⟨tbl0, ts0⟩
  by_cases hm : s.tmuxName ∈ names
  · by_cases h2 : s.ttydPort > 0
    · rcases hS : TtydManager.Start ts0 s.tmuxName s.ttydPort (spawnOk s.tmuxName) with ⟨b, ts2⟩
      cases b
      · exact ⟨{ s with status := Status.running, lastSeenAt := now, ttydPort := 0, terminalURL := "" },
          by simp [Manager.recoverMark, hm, h2, hS], rfl,
          Or.inr (by simp [Manager.recoverMark, hm, h2, hS]),
          fun _ _ => by simp [Manager.recoverMark, hm, h2, hS]⟩
      · exact ⟨{ s with status := Status.running, lastSeenAt := now },
          by simp [Manager.recoverMark, hm, h2, hS], rfl,
          Or.inr (by simp [Manager.recoverMark, hm, h2, hS]),
          fun _ _ => by simp [Manager.recoverMark, hm, h2, hS]⟩
    · exact ⟨{ s with status := Status.running, lastSeenAt := now },
        by simp [Manager.recoverMark, hm, h2], rfl,
        Or.inl (by simp [Manager.recoverMark, hm, h2]),
        fun _ hp => absurd hp h2⟩
  · exact ⟨{ s with status := Status.exited },
      by simp [Manager.recoverMark, hm], rfl,
      Or.inl (by simp [Manager.recoverMark, hm]),
      fun hin _ => absurd hin hm⟩

theorem recoverMark_fold_ports (names : List String) (spawnOk : String → Bool)
    (now : Nat) (P : Nat) :
    ∀ (rest : Table) (acc : Table × TtydState),
      (∀ r ∈ acc.1, r.1 = r.2.tmuxName) →
      (∀ r ∈ rest, r.1 = r.2.tmuxName) →
      (∀ n, n ∈ acc.2.processes → ∃ r ∈ acc.1, r.2.tmuxName = n) →
      (∀ r ∈ rest, ∀ r2 ∈ acc.1, r.2.tmuxName ≠ r2.2.tmuxName) →
      ((rest.map (fun q => q.2.tmuxName)).Nodup) →
      TtydManager.Available acc.2 = true →
      (P ∈ acc.2.usedPorts ∨
        ∃ r ∈ rest, r.2.tmuxName ∈ names ∧ 0 < r.2.ttydPort ∧
          spawnOk r.2.tmuxName = true ∧ r.2.ttydPort = P) →
      (∀ r ∈ (rest.foldl (Manager.recoverMark names spawnOk now) acc).1,
         r.1 = r.2.tmuxName) ∧
      (∀ n, n ∈ (rest.foldl (Manager.recoverMark names spawnOk now) acc).2.processes →
         ∃ r ∈ (rest.foldl (Manager.recoverMark names spawnOk now) acc).1,
           r.2.tmuxName = n) ∧
      TtydManager.Available (rest.foldl (Manager.recoverMark names spawnOk now) acc).2 = true ∧
      ((rest.foldl (Manager.recoverMark names spawnOk now) acc).1.map Prod.fst =
        acc.1.map Prod.fst ++ rest.map Prod.fst) ∧
      P ∈ (rest.foldl (Manager.recoverMark names spawnOk now) acc).2.usedPorts := by
  intro rest
  induction rest with
  | nil =>
    intro acc hk1 _ hpr _ _ hA hport
    refine ⟨hk1, hpr, hA, by simp, ?_⟩
    rcases hport with h | ⟨r, hr, _⟩
    · exact h
    · cases hr
  | cons q rest ih =>
    intro acc hk1 hk2 hpr hdist hnd hA hport
    rcases q with ⟨qid, qs⟩
    rw [List.foldl_cons]
    obtain ⟨s2, hstep1, hstm, hstep2, hstep3⟩ :=
      recoverMark_step_full names spawnOk now acc qid qs
    have hqfresh : qs.tmuxName ∉ acc.2.processes := by
      intro hc
      obtain ⟨r2, hr2, hr2n⟩ := hpr _ hc
      exact hdist (qid, qs) (List.mem_cons_self _ _) r2 hr2 hr2n.symm
    have hA1 : TtydManager.Available (Manager.recoverMark names spawnOk now acc (qid, qs)).2 = true := by
      rcases hstep2 with he | he
      · rw [he]; exact hA
      · rw [he, Start_Available]; exact hA
    have hpr1 : ∀ n, n ∈ (Manager.recoverMark names spawnOk now acc (qid, qs)).2.processes →
        ∃ r ∈ (Manager.recoverMark names spawnOk now acc (qid, qs)).1, r.2.tmuxName = n := by
      intro n hn
      rcases hstep2 with he | he
      · rw [he] at hn
        obtain ⟨r, hr, hrn⟩ := hpr n hn
        exact ⟨r, by rw [hstep1]; exact List.mem_append_left _ hr, hrn⟩
      · rw [he] at hn
        rcases Start_processes_subset _ _ _ _ n hn with rfl | hn2
        · exact ⟨(qid, s2), by rw [hstep1]; simp, hstm⟩
        · obtain ⟨r, hr, hrn⟩ := hpr n hn2
          exact ⟨r, by rw [hstep1]; exact List.mem_append_left _ hr, hrn⟩
    have hk11 : ∀ r ∈ (Manager.recoverMark names spawnOk now acc (qid, qs)).1,
        r.1 = r.2.tmuxName := by
      intro r hr
      rw [hstep1] at hr
      rcases List.mem_append.1 hr with h | h
      · exact hk1 r h
      · have he : r = (qid, s2) := by simpa using h
        rw [he]
        simp only []
        rw [hstm]
        exact hk2 (qid, qs) (List.mem_cons_self _ _)
    have hdist1 : ∀ r ∈ rest, ∀ r2 ∈ (Manager.recoverMark names spawnOk now acc (qid, qs)).1,
        r.2.tmuxName ≠ r2.2.tmuxName := by
      intro r hr r2 hr2
      rw [hstep1] at hr2
      rcases List.mem_append.1 hr2 with h | h
      · exact hdist r (List.mem_cons_of_mem _ hr) r2 h
      · have he : r2 = (qid, s2) := by simpa using h
        rw [he]
        simp only []
        rw [hstm]
        intro hc
        have hnotin : qs.tmuxName ∉ rest.map (fun q => q.2.tmuxName) :=
          (List.nodup_cons.1 (by simpa using hnd)).1
        exact hnotin (hc ▸ (List.mem_map_of_mem (fun q => q.2.tmuxName) hr))
    have hnd1 : (rest.map (fun q => q.2.tmuxName)).Nodup :=
      (List.nodup_cons.1 (by simpa using hnd)).2
    have hport1 : P ∈ (Manager.recoverMark names spawnOk now acc (qid, qs)).2.usedPorts ∨
        ∃ r ∈ rest, r.2.tmuxName ∈ names ∧ 0 < r.2.ttydPort ∧
          spawnOk r.2.tmuxName = true ∧ r.2.ttydPort = P := by
      rcases hport with h | ⟨r, hr, hin, hp0, hsp, hPeq⟩
      · left
        rcases hstep2 with he | he
        · rw [he]; exact h
        · rw [he]; exact Start_usedPorts_mono _ _ _ _ _ hqfresh h
      · rcases List.mem_cons.1 hr with rfl | hrr
        · left
          rw [hstep3 hin hp0, hsp, ← hPeq]
          exact Start_true_mem _ _ _ hA
        · exact Or.inr ⟨r, hrr, hin, hp0, hsp, hPeq⟩
    obtain ⟨c1, c2, c3, c4, c5⟩ := ih (Manager.recoverMark names spawnOk now acc (qid, qs))
      hk11 (fun r hr => hk2 r (List.mem_cons_of_mem _ hr)) hpr1 hdist1 hnd1 hA1 hport1
    refine ⟨c1, c2, c3, ?_, c5⟩
    rw [c4, hstep1]
    simp

theorem goInsert_append {α : Type} (t : List (String × α)) (k : String) (v : α)
    (h : t.any (fun p => p.1 == k) = false) : goInsert t k v = t ++ [(k, v)] := by
  unfold goInsert
  rw [h]
  simp

theorem Start_fst_spawnTrue (t : TtydState) (n : String) (p : Nat) :
    (TtydManager.Start t n p true).1 = true := by
  unfold TtydManager.Start
  repeat' split
  all_goals simp_all

theorem recoverOrphan_fold_inv (cfg : Config) (spawnOk : String → Bool) (now : Nat)
    (P : Nat) (origKeys : List String) (hP : 0 < P) :
    ∀ (nms : List String) (acc : Table × TtydState),
      (∀ r ∈ acc.1, r.1 = r.2.tmuxName) →
      (∀ n, n ∈ acc.2.processes → ∃ r ∈ acc.1, r.2.tmuxName = n) →
      P ∈ acc.2.usedPorts →
      (∀ r ∈ acc.1, r.1 ∉ origKeys → r.2.ttydPort ≠ P) →
      ∀ r ∈ (nms.foldl (Manager.recoverOrphan cfg spawnOk now) acc).1,
        r.1 ∉ origKeys → r.2.ttydPort ≠ P := by
  intro nms
  induction nms with
  | nil => intro acc _ _ _ hconc r hr; exact hconc r hr
  | cons nm rest ih =>
    intro acc hk hpr hP2 hconc
    rw [List.foldl_cons]
    rcases acc with ⟨tbl0, ts0⟩
    by_cases g1 : hasPre nm cfg.tmuxPre = true
    · by_cases g2 : safeIDPattern nm = true
      · by_cases g3 : tbl0.any (fun p => p.2.tmuxName == nm) = true
        · simp only [Manager.recoverOrphan, g1, g2, g3]
          simp only [Bool.not_true, Bool.false_eq_true, if_false, if_true]
          exact ih _ hk hpr hP2 hconc
        · have hkey : tbl0.any (fun p => p.1 == nm) = false := by
            by_contra hc
            rw [Bool.not_eq_false] at hc
            obtain ⟨p0, hp0, hp0e⟩ := List.any_eq_true.1 hc
            have hpn : p0.2.tmuxName = nm := by
              rw [← hk p0 hp0]
              simpa using hp0e
            exact g3 (List.any_eq_true.2 ⟨p0, hp0, by simp [hpn]⟩)
          have hnm : nm ∉ ts0.processes := by
            intro hc
            obtain ⟨r, hr, hrn⟩ := hpr nm hc
            exact g3 (List.any_eq_true.2 ⟨r, hr, by simp [hrn]⟩)
          have hP0 : (0 : Nat) ≠ P := (ne_of_gt hP).symm
          have hinv : ∀ (tblN : Table) (tsN : TtydState) (port : Nat) (url : String),
              port ≠ P →
              P ∈ tsN.usedPorts →
              (∀ n, n ∈ tsN.processes → n = nm ∨ n ∈ ts0.processes) →
              (∀ r ∈ (rest.foldl (Manager.recoverOrphan cfg spawnOk now)
                  (goInsert tbl0 nm (Manager.orphanSession cfg nm port url now), tsN)).1,
                r.1 ∉ origKeys → r.2.ttydPort ≠ P) := by
            intro tblN tsN port url hpne hPN hsub
            apply ih
            · intro r hr
              rw [goInsert_append _ _ _ hkey] at hr
              rcases List.mem_append.1 hr with h | h
              · exact hk r h
              · have he : r = (nm, Manager.orphanSession cfg nm port url now) := by simpa using h
                rw [he]
                rfl
            · intro n hn
              rcases hsub n hn with rfl | hn2
              · refine ⟨(n, Manager.orphanSession cfg n port url now), ?_, rfl⟩
                rw [goInsert_append _ _ _ hkey]
                simp
              · obtain ⟨r, hr, hrn⟩ := hpr n hn2
                refine ⟨r, ?_, hrn⟩
                rw [goInsert_append _ _ _ hkey]
                exact List.mem_append_left _ hr
            · exact hPN
            · intro r hr hro
              rw [goInsert_append _ _ _ hkey] at hr
              rcases List.mem_append.1 hr with h | h
              · exact hconc r h hro
              · have he : r = (nm, Manager.orphanSession cfg nm port url now) := by simpa using h
                rw [he]
                exact hpne
          by_cases g4 : TtydManager.Available ts0 = true
          · rcases hA : TtydManager.AllocatePort ts0 with ⟨o, ts1⟩
            cases o with
            | none =>
              have hts1 : ts1 = ts0 := AllocatePort_none _ _ hA
              subst hts1
              simp only [Manager.recoverOrphan, g1, g2, g3, g4, hA]
              simp only [Bool.not_true, Bool.false_eq_true, if_false, if_true]
              exact hinv tbl0 ts1 0 "" hP0 hP2 (fun n hn => Or.inr hn)
            | some pq =>
              obtain ⟨hfresh, hts1⟩ := AllocatePort_some _ _ _ hA
              have hpne : pq ≠ P := fun hc => hfresh (hc ▸ hP2)
              have hn1 : nm ∉ ts1.processes := by rw [hts1]; exact hnm
              have hPin1 : P ∈ ts1.usedPorts := by
                rw [hts1]; exact mem_markUsed_of_mem _ _ _ hP2
              rcases hS : TtydManager.Start ts1 nm pq (spawnOk nm) with ⟨b, ts2⟩
              cases b with
              | true =>
                have hts2 : ts2 = (TtydManager.Start ts1 nm pq (spawnOk nm)).2 := by
                  rw [hS]
                simp only [Manager.recoverOrphan, g1, g2, g3, g4, hA, hS]
                simp only [Bool.not_true, Bool.false_eq_true, if_false, if_true]
                refine hinv tbl0 ts2 pq ("/t/" ++ nm ++ "/") hpne ?_ ?_
                · rw [hts2]
                  exact Start_usedPorts_mono _ _ _ _ _ hn1 hPin1
                · intro n hn
                  rw [hts2] at hn
                  rcases Start_processes_subset _ _ _ _ n hn with rfl | hn2
                  · exact Or.inl rfl
                  · rw [hts1] at hn2
                    exact Or.inr hn2
              | false =>
                cases hsp : spawnOk nm with
                | true =>
                  rw [hsp] at hS
                  have hfst := Start_fst_spawnTrue ts1 nm pq
                  rw [hS] at hfst
                  cases hfst
                | false =>
                  simp only [Manager.recoverOrphan, g1, g2, g3, g4, hA, hsp]
                  simp only [Bool.not_true, Bool.false_eq_true, if_false, if_true]
                  rw [Start_fail_state ts1 nm pq (by rw [hts1]; exact g4) hn1]
                  refine hinv tbl0 (TtydManager.ReleasePort ts1 pq) 0 "" hP0 ?_ ?_
                  · unfold TtydManager.ReleasePort
                    exact mem_removeUsed_of_ne _ _ _ hPin1 (fun hc => hpne hc.symm)
                  · intro n hn
                    unfold TtydManager.ReleasePort at hn
                    rw [hts1] at hn
                    exact Or.inr hn
          · simp only [Manager.recoverOrphan, g1, g2, g3, g4]
            try simp only [Bool.not_true, Bool.false_eq_true, if_false, if_true]
            exact hinv tbl0 ts0 0 "" hP0 hP2 (fun n hn => Or.inr hn)
      · simp only [Manager.recoverOrphan, g1, g2]
        try simp only [Bool.not_true, Bool.false_eq_true, if_false, if_true]
        exact ih _ hk hpr hP2 hconc
    · simp only [Manager.recoverOrphan, g1]
      try simp only [Bool.not_true, Bool.false_eq_true, if_false, if_true]
      exact ih _ hk hpr hP2 hconc

/-- C10: within one Recover run over a startup supervisor state, every
persisted session whose ttyd was successfully restarted on its saved port
has that port registered before orphan discovery, so every session the
orphan scan inserts (any final entry whose key was not a persisted key)
carries a different port. -/
theorem C10_recover_orphan_ports_distinct
    (cfg : Config) (prev tbl : Table) (names : List String) (ttyd0 : TtydState)
    (spawnOk : String → Bool) (now : Nat) (id : String) (s : Session)
    (hkeys : ∀ q ∈ tbl, q.1 = q.2.tmuxName)
    (hnodupN : (tbl.map (fun q => q.2.tmuxName)).Nodup)
    (hproc : ttyd0.processes = [])
    (hpath : TtydManager.Available ttyd0 = true)
    (hmem : (id, s) ∈ tbl)
    (hlive : s.tmuxName ∈ names)
    (hport : 0 < s.ttydPort)
    (hspawn : spawnOk s.tmuxName = true) :
    ∀ q ∈ (Manager.Recover cfg prev (.parsed (some tbl)) (some names)
        ttyd0 spawnOk now).2.1,
      q.1 ∉ tbl.map Prod.fst → q.2.ttydPort ≠ s.ttydPort := by
  intro q hq hqk
  unfold Manager.Recover Manager.loadFromFile at hq
  simp only [Option.getD] at hq
  obtain ⟨c1, c2, c3, c4, c5⟩ :=
    recoverMark_fold_ports names spawnOk now s.ttydPort tbl ([], ttyd0)
      (by intro r hr; cases hr)
      hkeys
      (by intro n hn; rw [hproc] at hn; cases hn)
      (by intro r _ r2 hr2; cases hr2)
      hnodupN
      hpath
      (Or.inr ⟨(id, s), hmem, hlive, hport, hspawn, rfl⟩)
  refine recoverOrphan_fold_inv cfg spawnOk now s.ttydPort (tbl.map Prod.fst) hport names _
    c1 c2 c5 ?_ q hq hqk
  intro r hr hrk
  exfalso
  apply hrk
  have hmm : r.1 ∈ (tbl.foldl (Manager.recoverMark names spawnOk now) ([], ttyd0)).1.map Prod.fst :=
    List.mem_map_of_mem Prod.fst hr
  rw [c4] at hmm
  simpa using hmm

/-- C10 witness: with persisted session test-a restarted on its saved
port 19000, the orphan test-b discovered in the same run is started on
19001, not 19000. -/
theorem C10_recover_orphan_ports_witness :
    (Manager.orphanSession cfgDemo "test-b" 19001 "/t/test-b/" 7).ttydPort ≠
      sessA.ttydPort :=
  C10_recover_orphan_ports_distinct cfgDemo [] [("test-a", sessA)]
    ["test-a", "test-b"] tsAvail (fun _ => true) 7 "test-a" sessA
    (by decide) (by decide) rfl (by decide) (by decide) (by decide) (by decide) rfl
    ("test-b", Manager.orphanSession cfgDemo "test-b" 19001 "/t/test-b/" 7)
    (by rw [show (Manager.Recover cfgDemo [] (.parsed (some [("test-a", sessA)]))
          (some ["test-a", "test-b"]) tsAvail (fun _ => true) 7).2.1 =
        [("test-a", { sessA with status := Status.running, lastSeenAt := 7 }),
         ("test-b", Manager.orphanSession cfgDemo "test-b" 19001 "/t/test-b/" 7)] from rfl]
        simp)
    (by decide)

end CCWeb
